import Mathlib

/-!
Verification development for the Komodo IDE UI-glue modules
`src/chrome/komodo/content/library/open.p.js` (URI open dispatcher) and
`src/chrome/komodo/content/sdk/dynamic-button.js` (dynamic button registry).

The JavaScript is shallowly embedded: strings are `List Char`, external
collaborators (view manager, dialog service, preference store, scheme
service, ...) are supplied as an explicit environment of functions whose
fallible operations return `Except Err`, and each entry point is a pure
function from the environment and its arguments to a record of observable
effects (open requests issued, prompts shown, log entries, flag values).
-/

/-- JavaScript strings are modelled as lists of characters. -/
abbrev Str := List Char

/-- Convert a Lean string literal to the model's string type. -/
def strL (s : String) : Str := s.data

/-- ASCII lower-casing of a single character, as performed by the
case-insensitive (`/i`) regex flag and `String.prototype.toLowerCase`
on the ASCII extensions this code compares. -/
def lowerChar (c : Char) : Char :=
  match c with
  | 'A' => 'a' | 'B' => 'b' | 'C' => 'c' | 'D' => 'd' | 'E' => 'e'
  | 'F' => 'f' | 'G' => 'g' | 'H' => 'h' | 'I' => 'i' | 'J' => 'j'
  | 'K' => 'k' | 'L' => 'l' | 'M' => 'm' | 'N' => 'n' | 'O' => 'o'
  | 'P' => 'p' | 'Q' => 'q' | 'R' => 'r' | 'S' => 's' | 'T' => 't'
  | 'U' => 'u' | 'V' => 'v' | 'W' => 'w' | 'X' => 'x' | 'Y' => 'y'
  | 'Z' => 'z'
  | c => c

/-- Lower-case a whole string. -/
def lowerStr (s : Str) : Str := s.map lowerChar

/-- Model of `pat.isSuffixOf (lowerStr s)`: the case-insensitive end-anchored regex
tests such as `uri.match(/\.kpf$/i)` (with `pat` already lower-case). -/
def endsWithCI (s pat : Str) : Bool := pat.isSuffixOf (lowerStr s)

/-- JavaScript's `.` (without the `s` flag) matches any character except a
line terminator. -/
def isLineTerm (c : Char) : Bool :=
  c == '\n' || c == '\r' || c == Char.ofNat 0x2028 || c == Char.ofNat 0x2029

/-- Nonempty all-digit string: what `(\d+)$` captures. -/
def isDigits (l : Str) : Bool := !l.isEmpty && l.all (fun c => c.isDigit)

/-- JavaScript falsiness of an optional string argument (absent or `""`). -/
def optFalsy : Option Str → Bool
  | none => true
  | some s => s.isEmpty

-- ### Basic character lemmas

theorem lowerChar_dot {c : Char} (h : lowerChar c = '.') : c = '.' := by
  unfold lowerChar at h
  split at h
  all_goals first
  | exact absurd h (by decide)
  | exact h

theorem lowerChar_digit {c : Char} (h : c.isDigit = true) : lowerChar c = c := by
  unfold lowerChar
  split
  all_goals first
  | rfl
  | exact absurd h (by decide)

theorem isLineTerm_digit {c : Char} (h : c.isDigit = true) : isLineTerm c = false := by
  unfold isLineTerm
  simp only [Bool.or_eq_false_iff, beq_eq_false_iff_ne, ne_eq]
  refine ⟨⟨⟨?_, ?_⟩, ?_⟩, ?_⟩ <;> rintro rfl <;> exact absurd h (by decide)

-- ### The `fileLineNoRE` regex: `/^(.*)(?:[#:]|%23|%3A)(\d+)$/`
-- (open.p.js line 15). `splitLineNo` finds the greedy (right-most) split
-- `uri = prefix ++ sep ++ digits`; `execLineNo` adds the constraint that
-- `.*` cannot cross a line terminator (so a URI containing one never
-- matches, since the digits and separators contain none either).

/-- The separator alternatives of `fileLineNoRE`, in source order. -/
def sepList : List Str := [strL "#", strL ":", strL "%23", strL "%3A"]

/-- Try to read `(?:[#:]|%23|%3A)(\d+)$` at the head of `l`, returning the
digit capture. At any given position at most one alternative can match. -/
def sepDigits : Str → Option Str
  | '#' :: rest => if isDigits rest then some rest else none
  | ':' :: rest => if isDigits rest then some rest else none
  | '%' :: '2' :: '3' :: rest => if isDigits rest then some rest else none
  | '%' :: '3' :: 'A' :: rest => if isDigits rest then some rest else none
  | _ => none

/-- Greedy match of `fileLineNoRE` ignoring line terminators: the split with
the longest possible prefix (group 1), i.e. the right-most separator
followed only by digits. -/
def splitLineNo : Str → Option (Str × Str)
  | [] => none
  | c :: rest =>
    match splitLineNo rest with
    | some (p, d) => some (c :: p, d)
    | none =>
      match sepDigits (c :: rest) with
      | some d => some ([], d)
      | none => none

/-- Model of `fileLineNoRE.exec uri`: the greedy split, except that a string
containing a line terminator never matches (JavaScript `.` excludes them,
and neither the separators nor `\d` can consume them). -/
def execLineNo (uri : Str) : Option (Str × Str) :=
  if uri.any isLineTerm then none else splitLineNo uri

theorem sepDigits_sound {l d : Str} (h : sepDigits l = some d) :
    isDigits d = true ∧ ∃ sep ∈ sepList, l = sep ++ d := by
  unfold sepDigits at h
  split at h
  case h_1 rest =>
    split at h
    · cases h; exact ⟨by assumption, strL "#", by simp [sepList], rfl⟩
    · cases h
  case h_2 rest =>
    split at h
    · cases h; exact ⟨by assumption, strL ":", by simp [sepList], rfl⟩
    · cases h
  case h_3 rest =>
    split at h
    · cases h; exact ⟨by assumption, strL "%23", by simp [sepList], rfl⟩
    · cases h
  case h_4 rest =>
    split at h
    · cases h; exact ⟨by assumption, strL "%3A", by simp [sepList], rfl⟩
    · cases h
  case h_5 => cases h

theorem splitLineNo_sound {l p d : Str} (h : splitLineNo l = some (p, d)) :
    isDigits d = true ∧ ∃ sep ∈ sepList, l = p ++ sep ++ d := by
  induction l generalizing p with
  | nil => cases h
  | cons c rest ih =>
    unfold splitLineNo at h
    split at h
    case h_1 p' d' hrec =>
      cases h
      obtain ⟨hd, sep, hsep, hrest⟩ := ih hrec
      exact ⟨hd, sep, hsep, by simp [hrest]⟩
    case h_2 hrec =>
      split at h
      case h_1 d0 hsep =>
        cases h
        obtain ⟨hd, sep, hmem, hl⟩ := sepDigits_sound hsep
        exact ⟨hd, sep, hmem, by simp [hl]⟩
      case h_2 => cases h

/-- No separator alternative can start anywhere in `l`, so the regex finds
no match. -/
theorem splitLineNo_none_of_no_sep_heads {l : Str}
    (h : ∀ c ∈ l, c ≠ '#' ∧ c ≠ ':' ∧ c ≠ '%') : splitLineNo l = none := by
  cases hs : splitLineNo l with
  | none => rfl
  | some pd =>
    obtain ⟨p, d⟩ := pd
    obtain ⟨_, sep, hmem, hl⟩ := splitLineNo_sound hs
    exfalso
    have hm : ∀ c ∈ sep, c ∈ l := by
      intro c hc
      rw [hl]
      exact List.mem_append_left _ (List.mem_append_right _ hc)
    simp only [sepList, strL, List.mem_cons, List.not_mem_nil, or_false] at hmem
    rcases hmem with rfl | rfl | rfl | rfl
    · exact (h '#' (hm '#' (by decide))).1 rfl
    · exact (h ':' (hm ':' (by decide))).2.1 rfl
    · exact (h '%' (hm '%' (by decide))).2.2 rfl
    · exact (h '%' (hm '%' (by decide))).2.2 rfl

/-- A string whose last character is not a digit never matches the regex. -/
theorem splitLineNo_none_of_last {l : Str} {c : Char}
    (hl : l.getLast? = some c) (hc : c.isDigit = false) : splitLineNo l = none := by
  cases hs : splitLineNo l with
  | none => rfl
  | some pd =>
    obtain ⟨p, d⟩ := pd
    obtain ⟨hd, sep, _, hldec⟩ := splitLineNo_sound hs
    exfalso
    simp only [isDigits, Bool.and_eq_true, Bool.not_eq_true', List.isEmpty_eq_false,
      List.all_eq_true] at hd
    obtain ⟨hne, hall⟩ := hd
    have hlast : d.getLast? = some (d.getLast hne) := List.getLast?_eq_getLast d hne
    have h1 : l.getLast? = some (d.getLast hne) := by
      rw [hldec, List.getLast?_append, hlast, Option.or_some]
    rw [hl] at h1
    have h2 : c = d.getLast hne := by
      exact Option.some_injective _ h1
    have h3 := hall _ (List.getLast_mem hne)
    rw [← h2, hc] at h3
    cases h3

/-- The constructive direction: the regex strips exactly the given trailing
separator-plus-digits suffix (the digits contain no further separator, so
the greedy split is unique). -/
theorem splitLineNo_append {p sep d : Str}
    (hsep : sep ∈ sepList) (hd : isDigits d = true) :
    splitLineNo (p ++ sep ++ d) = some (p, d) := by
  have hdall : ∀ c ∈ d, c.isDigit = true := by
    simp only [isDigits, Bool.and_eq_true, List.all_eq_true] at hd
    exact hd.2
  have hdigits_no_heads : ∀ c ∈ d, c ≠ '#' ∧ c ≠ ':' ∧ c ≠ '%' := by
    intro c hc
    have := hdall c hc
    refine ⟨?_, ?_, ?_⟩ <;> rintro rfl <;> exact absurd this (by decide)
  have hdne : isDigits d = true → d.isEmpty = false := by
    intro h; simp only [isDigits, Bool.and_eq_true, Bool.not_eq_true'] at h; exact h.1
  induction p with
  | nil =>
    simp only [List.nil_append]
    simp only [sepList, strL, List.mem_cons, List.not_mem_nil, or_false] at hsep
    rcases hsep with rfl | rfl | rfl | rfl
    · show splitLineNo ('#' :: d) = some ([], d)
      unfold splitLineNo
      rw [splitLineNo_none_of_no_sep_heads hdigits_no_heads]
      simp [sepDigits, hd]
    · show splitLineNo (':' :: d) = some ([], d)
      unfold splitLineNo
      rw [splitLineNo_none_of_no_sep_heads hdigits_no_heads]
      simp [sepDigits, hd]
    · show splitLineNo ('%' :: '2' :: '3' :: d) = some ([], d)
      unfold splitLineNo
      rw [show splitLineNo ('2' :: '3' :: d) = none from ?_]
      · simp [sepDigits, hd]
      · apply splitLineNo_none_of_no_sep_heads
        intro c hc
        simp only [List.mem_cons] at hc
        rcases hc with rfl | rfl | hc
        · exact by decide
        · exact by decide
        · exact hdigits_no_heads c hc
    · show splitLineNo ('%' :: '3' :: 'A' :: d) = some ([], d)
      unfold splitLineNo
      rw [show splitLineNo ('3' :: 'A' :: d) = none from ?_]
      · simp [sepDigits, hd]
      · apply splitLineNo_none_of_no_sep_heads
        intro c hc
        simp only [List.mem_cons] at hc
        rcases hc with rfl | rfl | hc
        · exact by decide
        · exact by decide
        · exact hdigits_no_heads c hc
  | cons c p' ih =>
    show splitLineNo (c :: (p' ++ sep ++ d)) = some (c :: p', d)
    unfold splitLineNo
    rw [ih]

-- ### `execLineNo` lemmas

theorem execLineNo_append {p sep d : Str} (hsep : sep ∈ sepList) (hd : isDigits d = true)
    (hp : p.all (fun c => !isLineTerm c) = true) :
    execLineNo (p ++ sep ++ d) = some (p, d) := by
  unfold execLineNo
  rw [if_neg, splitLineNo_append hsep hd]
  intro hany
  simp only [List.any_eq_true, List.mem_append] at hany
  obtain ⟨c, hc, hterm⟩ := hany
  rcases hc with hc | hc
  · rcases hc with hc | hc
    · simp only [List.all_eq_true, Bool.not_eq_true'] at hp
      rw [hp c hc] at hterm
      cases hterm
    · simp only [sepList, strL, List.mem_cons, List.not_mem_nil, or_false] at hsep
      rcases hsep with rfl | rfl | rfl | rfl <;>
        (simp only [List.mem_cons, List.not_mem_nil, or_false] at hc) <;>
        (rcases hc with rfl | hc) <;> first
        | (exact absurd hterm (by decide))
        | (rcases hc with rfl | hc ; exact absurd hterm (by decide)
           rcases hc with rfl ; exact absurd hterm (by decide))
  · have hcd : c.isDigit = true := by
      simp only [isDigits, Bool.and_eq_true, List.all_eq_true] at hd
      exact hd.2 c hc
    rw [isLineTerm_digit hcd] at hterm
    cases hterm

theorem execLineNo_none_of_last {l : Str} {c : Char} (hl : l.getLast? = some c)
    (hc : c.isDigit = false) : execLineNo l = none := by
  unfold execLineNo
  split
  · rfl
  · exact splitLineNo_none_of_last hl hc

-- ### `afterLastDot`: model of `uri.substr(uri.lastIndexOf('.') + 1)`

/-- The characters strictly after the last `'.'` of the string (`none` when
there is no dot at all). -/
def afterLastDot : Str → Option Str
  | [] => none
  | c :: rest =>
    if c = '.' then
      match afterLastDot rest with
      | some e => some e
      | none => some rest
    else afterLastDot rest

theorem afterLastDot_nodot {l : Str} (h : ∀ c ∈ l, c ≠ '.') : afterLastDot l = none := by
  induction l with
  | nil => rfl
  | cons c rest ih =>
    unfold afterLastDot
    rw [if_neg (h c (List.mem_cons_self c rest))]
    exact ih (fun x hx => h x (List.mem_cons_of_mem c hx))

theorem afterLastDot_dotcons {l : Str} (h : ∀ c ∈ l, c ≠ '.') :
    afterLastDot ('.' :: l) = some l := by
  unfold afterLastDot
  rw [if_pos rfl, afterLastDot_nodot h]

theorem afterLastDot_append {t u e : Str} (h : afterLastDot u = some e) :
    afterLastDot (t ++ u) = some e := by
  induction t with
  | nil => simpa using h
  | cons c t' ih =>
    show afterLastDot (c :: (t' ++ u)) = some e
    unfold afterLastDot
    by_cases hc : c = '.'
    · rw [if_pos hc, ih]
    · rw [if_neg hc]
      exact ih

-- ### Suffix-based exclusion machinery for the end-anchored matchers

theorem endsWithCI_suffix {u pat : Str} (h : endsWithCI u pat = true) :
    pat <:+ lowerStr u := by
  unfold endsWithCI at h
  exact List.isSuffixOf_iff_suffix.mp h

/-- Two end-anchored patterns that are not suffixes of one another cannot
both match the same string. -/
theorem endsWithCI_excl {u a b : Str} (h : endsWithCI u a = true)
    (h1 : a.isSuffixOf b = false) (h2 : b.isSuffixOf a = false) :
    endsWithCI u b = false := by
  have ha := endsWithCI_suffix h
  cases hb : endsWithCI u b
  · rfl
  · exfalso
    have hbs := endsWithCI_suffix hb
    rcases List.suffix_or_suffix_of_suffix ha hbs with hab | hba
    · have := List.isSuffixOf_iff_suffix.mpr hab
      rw [h1] at this
      exact absurd this (by decide)
    · have := List.isSuffixOf_iff_suffix.mpr hba
      rw [h2] at this
      exact absurd this (by decide)

/-- The last character of a string matched by an end-anchored pattern
lower-cases to the pattern's last character. -/
theorem getLast_lower_of_endsWithCI {u pat : Str} {a : Char} (h : endsWithCI u pat = true)
    (hl : pat.getLast? = some a) : ∃ c, u.getLast? = some c ∧ lowerChar c = a := by
  obtain ⟨t, ht⟩ := endsWithCI_suffix h
  have h1 : (lowerStr u).getLast? = some a := by
    rw [← ht, List.getLast?_append, hl, Option.or_some]
  rw [lowerStr, List.getLast?_map] at h1
  cases hu : u.getLast? with
  | none => rw [hu] at h1; cases h1
  | some c =>
    rw [hu] at h1
    exact ⟨c, rfl, Option.some_injective _ h1⟩

/-- A URI matched by an end-anchored extension pattern whose last character
is not a digit cannot carry an embedded `#N`/`:N` line suffix. -/
theorem execLineNo_none_of_endsWithCI {u pat : Str} {a : Char}
    (h : endsWithCI u pat = true) (hl : pat.getLast? = some a) (ha : a.isDigit = false) :
    execLineNo u = none := by
  obtain ⟨c, hc, hlow⟩ := getLast_lower_of_endsWithCI h hl
  have hcd : c.isDigit = false := by
    cases hd : c.isDigit
    · rfl
    · exfalso
      rw [lowerChar_digit hd] at hlow
      subst hlow
      rw [hd] at ha
      cases ha
  exact execLineNo_none_of_last hc hcd

/-- A case-insensitive `.ext` suffix (with `ext` nonempty and dot-free)
pins down `afterLastDot`: it returns the final `ext.length` characters. -/
theorem afterLastDot_of_endsWithCI {u rest : Str}
    (h : endsWithCI u ('.' :: rest) = true) (hnd : ∀ c ∈ rest, c ≠ '.') :
    ∃ e, afterLastDot u = some e ∧ e.length = rest.length := by
  obtain ⟨t, ht⟩ := endsWithCI_suffix h
  have hsplit : u = u.take t.length ++ u.drop t.length := (List.take_append_drop _ _).symm
  have hmap : (u.drop t.length).map lowerChar = '.' :: rest := by
    have hdl : (lowerStr u).drop t.length = '.' :: rest := by
      rw [← ht, List.drop_left]
    rw [← hdl, lowerStr, List.map_drop]
  cases hdu : u.drop t.length with
  | nil => rw [hdu] at hmap; cases hmap
  | cons c s2 =>
    rw [hdu] at hmap
    injection hmap with hc hs2
    have hcdot : c = '.' := lowerChar_dot hc
    have hs2nd : ∀ x ∈ s2, x ≠ '.' := by
      intro x hx
      rintro rfl
      have h3 := List.mem_map_of_mem lowerChar hx
      rw [hs2] at h3
      have h4 : lowerChar '.' = '.' := by decide
      rw [h4] at h3
      exact hnd '.' h3 rfl
    refine ⟨s2, ?_, ?_⟩
    · rw [hsplit, hdu, hcdot]
      exact afterLastDot_append (afterLastDot_dotcons hs2nd)
    · have h5 := congrArg List.length hs2
      simpa using h5

-- ### The `ko.open` URI dispatcher (open.p.js)

namespace KoOpen

/-- Opaque identifier for an exception value thrown by an external
collaborator. -/
abbrev Err := Nat

/-- The `lineno` value as flowed through `URIAtLine`: JavaScript
`null`/`undefined`, a number (the explicit argument), or a string (the
regex capture `m[2]`). -/
inductive LineVal
  | noLine
  | num (n : Int)
  | str (s : Str)
deriving DecidableEq

/-- JavaScript truthiness of `lineno` (`if (lineno)`, line 242): the number
`0` and the empty string are falsy. -/
def LineVal.truthy : LineVal → Bool
  | .noLine => false
  | .num n => n != 0
  | .str s => !s.isEmpty

/-- The three disambiguation prompts of the default branch. -/
inductive PromptKind | ksf | sublime | komodotool
deriving DecidableEq

/-- Outcome of a `ko.dialogs.customButtons` prompt, abstracted to the three
behaviours the dispatcher distinguishes: the first button (accept the
import), cancel-or-dismissed (`!answer || answer == responses[2]`), and
any other answer (the middle "Open as Text" button), which falls through
to the plain open. -/
inductive CBAnswer | accept | cancel | openAsText
deriving DecidableEq

/-- A request issued to the external view manager
(`doFileOpenAtLineAsync` / `doFileOpenAsync`, lines 242-246); `cb` records
whether the caller's callback was forwarded with the request. -/
inductive OpenCall
  | atLine (uri : Str) (line : LineVal) (viewType : Option Str) (cb : Bool)
  | plain (uri : Str) (viewType : Option Str) (cb : Bool)
deriving DecidableEq

/-- Observable effects of one `URIAtLine` call. `skip` is the value of the
module-level one-shot `skipNextPrompt` flag after the call; `opens` the
open requests issued to the view manager; `log` the exceptions logged via
`log.exception`. `URIAtLine` itself always returns `null` and never
invokes the caller's callback synchronously — the callback is only ever
handed to the view manager inside an `opens` entry. -/
structure Effects where
  skip : Bool
  opens : List OpenCall := []
  prompts : List PromptKind := []
  log : List Err := []
  alerts : Nat := 0
  projectOpens : List Str := []
  addonInstalls : List Str := []
  kpzImports : List Str := []
  sqliteLoads : List Str := []
  schemeImports : List Str := []
  sublimeImports : List Str := []
  toolImports : List Str := []
deriving DecidableEq

/-- The external collaborators used by the dispatcher. A fallible external
call returns `Except Err`; `.error e` models a thrown exception `e`.
`ko.dialogs.prompt` inside the scheme-name loop is modelled by the finite
list `promptResponses` (an empty string is a dismissed prompt, and an
exhausted list behaves as a dismissal). -/
structure OpenEnv where
  pathToURI : Str → Except Err Str
  projectsOpen : Str → Bool → Except Err Unit
  installAddon : Str → Except Err Unit
  importPackage : Str → Except Err Unit
  dbexplorer : Bool
  addSqlite : Str → Except Err Bool
  customButtons : PromptKind → CBAnswer
  getSchemeNames : Except Err (List Str)
  schemeNameIsValid : Str → Bool
  platformCI : Bool
  baseName : Str → Str
  extOf : Str → Str
  promptResponses : List Str
  loadScheme : Str → Str → Except Err Str
  activateScheme : Str → Except Err Str
  notifyRestore : Except Err Unit
  uriToPath : Str → Str
  importSublime : Str → Except Err Unit
  importTools : Str → Except Err Unit
  doFileOpen : OpenCall → Except Err Unit

/-- Test `uri.match(/\.(?:kpf|komodoproject)$/i)` (line 158). -/
def matchProject (u : Str) : Bool :=
  endsWithCI u (strL ".kpf") || endsWithCI u (strL ".komodoproject")

/-- Test `uri.match(/\.xpi$/i)` (line 160). -/
def matchXpi (u : Str) : Bool := endsWithCI u (strL ".xpi")

/-- Test `uri.match(/\.kpz$/i)` (line 166). -/
def matchKpz (u : Str) : Bool := endsWithCI u (strL ".kpz")

/-- Test `uri.match(/\.ksf$/i)` (line 177). -/
def matchKsf (u : Str) : Bool := endsWithCI u (strL ".ksf")

/-- Test `uri.match(/\.sublime-snippet$/i)` (line 206). -/
def matchSublime (u : Str) : Bool := endsWithCI u (strL ".sublime-snippet")

/-- Test `uri.match(/(?:\.komodotool|\.ktf)$/i)` (line 220). -/
def matchKomodoTool (u : Str) : Bool :=
  endsWithCI u (strL ".komodotool") || endsWithCI u (strL ".ktf")

/-- Model of `ko.open.isImageUrl` (lines 30-47). -/
def isImageUrl (u : Str) : Bool :=
  [strL ".png", strL ".gif", strL ".jpg", strL ".jpeg", strL ".bmp", strL ".ico"].any
    (endsWithCI u)

/-- Model of `ko.open.isAudioUrl` (lines 49-60). -/
def isAudioUrl (u : Str) : Bool := endsWithCI u (strL ".mp3")

/-- The extensions recognised by `loadSqliteDatabase` (line 261). -/
def dbExts : List Str := [strL "db", strL "sqlite", strL "sqlite3"]

/-- The extension test of `loadSqliteDatabase` (lines 258-263): a dot that
is neither absent nor last, and an extension in `dbExts`
(case-sensitively). -/
def dbExtHit (u : Str) : Bool :=
  match afterLastDot u with
  | none => false
  | some e => !e.isEmpty && dbExts.contains e

/-- Model of `this.loadSqliteDatabase(uri)` (lines 254-265): `false` without a
database-explorer collaborator or a matching extension; otherwise the
truthiness of the external `addSqliteDatabaseFromURI` result. -/
def loadSqliteDatabase (env : OpenEnv) (u : Str) : Except Err Bool :=
  if env.dbexplorer && dbExtHit u then env.addSqlite u else .ok false

/-- Lines 151-157 of `URIAtLine`: a trailing line-number suffix is
interpreted (and stripped) only when the explicit `lineno` argument is
`null`. -/
def stripLine (uri : Str) (l : LineVal) : Str × LineVal :=
  match l with
  | .noLine =>
    match execLineNo uri with
    | some (p, d) => (p, .str d)
    | none => (uri, .noLine)
  | l => (uri, l)

/-- Platform-dependent case adjustment used by `_checkKSFBaseName`
(lower-cased on Windows and macOS builds, lines 281-283 and 295-299). -/
def adjName (ci : Bool) (s : Str) : Str := if ci then lowerStr s else s

/-- Occurrence test of `pat` at index `i` of `s`. -/
def substrAt (s pat : Str) (i : Nat) : Bool := (s.drop i).take pat.length == pat

/-- Model of `String.prototype.lastIndexOf` for a substring (`none` for -1). -/
def lastIndexOf (s pat : Str) : Option Nat :=
  ((List.range (s.length + 1)).filter (substrAt s pat)).getLast?

/-- The scheme-name prompt loop of `_checkKSFBaseName` (lines 290-314),
driven by the finite list of modelled user responses. -/
def checkKSFLoop (env : OpenEnv) (names : List Str) (ext : Str) :
    List Str → Str → Option Str
  | responses, cur =>
    if (cur.isEmpty || !env.schemeNameIsValid cur)
        || names.contains (adjName env.platformCI cur) then
      match responses with
      | [] => none
      | r :: rest => if r.isEmpty then none else checkKSFLoop env names ext rest r
    else some (cur ++ ext)

/-- Model of `_checkKSFBaseName` (lines 276-317): propose `baseName` minus its
extension as the scheme name and loop prompting until a valid, unused name
is entered or the prompt is dismissed. -/
def checkKSFBaseName (env : OpenEnv) (u : Str) : Except Err (Option Str) :=
  match env.getSchemeNames with
  | .error e => .error e
  | .ok names =>
    let namesAdj := names.map (adjName env.platformCI)
    let base := env.baseName u
    let ext := env.extOf u
    let first := match lastIndexOf base ext with
      | some i => base.take i
      | none => []
    .ok (checkKSFLoop env namesAdj ext env.promptResponses first)

/-- Control-flow outcome of the prompt block (lines 176-239): `ret` models
the early `return null` paths; `cont vt` falls through to the
view-manager open with the (possibly defaulted) view type. -/
inductive PromptOut
  | ret
  | cont (vt : Option Str)
deriving DecidableEq

/-- The prompt block of the default branch (lines 176-239), entered only
when `skipNextPrompt` is unset. -/
def promptPhase (env : OpenEnv) (E : Effects) (u : Str) (vt : Option Str) :
    Effects × Except Err PromptOut :=
  if matchKsf u then
    let E1 := { E with prompts := E.prompts ++ [PromptKind.ksf] }
    match env.customButtons PromptKind.ksf with
    | .cancel => (E1, .ok .ret)
    | .openAsText => (E1, .ok (.cont vt))
    | .accept =>
      match checkKSFBaseName env u with
      | .error e => (E1, .error e)
      | .ok none => (E1, .ok .ret)
      | .ok (some nm) =>
        match env.loadScheme u nm with
        | .error e =>
          ({ E1 with alerts := E1.alerts + 1, log := E1.log ++ [e] }, .ok (.cont vt))
        | .ok newName =>
          let E2 := { E1 with schemeImports := E1.schemeImports ++ [newName] }
          match env.activateScheme newName with
          | .error e =>
            ({ E2 with alerts := E2.alerts + 1, log := E2.log ++ [e] }, .ok (.cont vt))
          | .ok _old =>
            match env.notifyRestore with
            | .error e =>
              ({ E2 with alerts := E2.alerts + 1, log := E2.log ++ [e] }, .ok (.cont vt))
            | .ok _ => (E2, .ok .ret)
  else if matchSublime u then
    let E1 := { E with prompts := E.prompts ++ [PromptKind.sublime] }
    match env.customButtons PromptKind.sublime with
    | .cancel => (E1, .ok .ret)
    | .openAsText => (E1, .ok (.cont vt))
    | .accept =>
      match env.importSublime (env.uriToPath u) with
      | .error e => (E1, .error e)
      | .ok _ =>
        ({ E1 with sublimeImports := E1.sublimeImports ++ [env.uriToPath u] }, .ok .ret)
  else if matchKomodoTool u then
    let E1 := { E with prompts := E.prompts ++ [PromptKind.komodotool] }
    match env.customButtons PromptKind.komodotool with
    | .cancel => (E1, .ok .ret)
    | .openAsText => (E1, .ok (.cont vt))
    | .accept =>
      match env.importTools (env.uriToPath u) with
      | .error e => (E1, .error e)
      | .ok _ =>
        ({ E1 with toolImports := E1.toolImports ++ [env.uriToPath u] }, .ok .ret)
  else if optFalsy vt && (isImageUrl u || isAudioUrl u) then
    (E, .ok (.cont (some (strL "browser"))))
  else (E, .ok (.cont vt))

/-- Lines 242-246: `doFileOpenAtLineAsync` when `lineno` is truthy,
`doFileOpenAsync` otherwise. -/
def mkOpenCall (u : Str) (lineno : LineVal) (vt : Option Str) (cb : Bool) : OpenCall :=
  if lineno.truthy then OpenCall.atLine u lineno vt cb else OpenCall.plain u vt cb

/-- The default branch tail (lines 170-246): optionally run the prompt
block, then clear the one-shot flag (line 240) and request the
asynchronous open (lines 242-246). -/
def defaultPhase (env : OpenEnv) (E : Effects) (skip0 : Bool) (u : Str)
    (lineno : LineVal) (vt : Option Str) (cb : Bool) : Effects × Except Err Unit :=
  match (if skip0 then (E, Except.ok (PromptOut.cont vt)) else promptPhase env E u vt) with
  | (E1, .error e) => (E1, .error e)
  | (E1, .ok .ret) => (E1, .ok ())
  | (E1, .ok (.cont vt2)) =>
    let E2 := { E1 with skip := false }
    let call := mkOpenCall u lineno vt2 cb
    match env.doFileOpen call with
    | .error e => (E2, .error e)
    | .ok _ => ({ E2 with opens := E2.opens ++ [call] }, .ok ())

/-- The body of the `try` of `open_openURIAtLine` (lines 145-247); an
`.error` in the second component is an exception propagating to the
`catch` at line 248. -/
def URIAtLineInner (env : OpenEnv) (skip0 : Bool) (uri0 : Str) (lineno0 : LineVal)
    (vt : Option Str) (skipRecent : Bool) (cb : Bool) : Effects × Except Err Unit :=
  let E0 : Effects := { skip := skip0 }
  match env.pathToURI uri0 with
  | .error e => (E0, .error e)
  | .ok u0 =>
    let ul := stripLine u0 lineno0
    let u := ul.1
    let lineno := ul.2
    if matchProject u then
      match env.projectsOpen u skipRecent with
      | .error e => (E0, .error e)
      | .ok _ => ({ E0 with projectOpens := [u] }, .ok ())
    else if matchXpi u then
      match env.installAddon u with
      | .error _ => ({ E0 with alerts := 1 }, .ok ())
      | .ok _ => ({ E0 with addonInstalls := [u] }, .ok ())
    else if matchKpz u then
      match env.importPackage u with
      | .error e => (E0, .error e)
      | .ok _ => ({ E0 with kpzImports := [u] }, .ok ())
    else
      let dbHit := env.dbexplorer && dbExtHit u
      let E1 := if dbHit then { E0 with sqliteLoads := [u] } else E0
      match (if dbHit then env.addSqlite u else .ok false) with
      | .error e => (E1, .error e)
      | .ok true => (E1, .ok ())
      | .ok false => defaultPhase env E1 skip0 u lineno vt cb

/-- Model of `ko.open.URIAtLine` (lines 142-252). The JavaScript function always
returns `null`; the `catch(e)` at line 248 logs and swallows any exception
from the body, so the embedding is total and returns only the effects. -/
def URIAtLine (env : OpenEnv) (skip0 : Bool) (uri : Str) (lineno : LineVal)
    (vt : Option Str) (skipRecent : Bool) (cb : Bool) : Effects :=
  match URIAtLineInner env skip0 uri lineno vt skipRecent cb with
  | (E, .ok _) => E
  | (E, .error e) => { E with log := E.log ++ [e] }

/-- Model of `ko.open.URI` (lines 81-85): `URIAtLine` with a `null` line number. -/
def URI (env : OpenEnv) (skip0 : Bool) (uri : Str) (vt : Option Str)
    (skipRecent : Bool) (cb : Bool) : Effects :=
  URIAtLine env skip0 uri .noLine vt skipRecent cb

end KoOpen

namespace KoOpen

-- ### `ko.open.displayPath` (lines 385-410)

/-- Model of `_fequal` (lines 512-518): path equality, case-insensitive on the
Windows and macOS builds (`ci = true`). -/
def fequal (ci : Bool) (a b : Str) : Bool :=
  if ci then lowerStr a == lowerStr b else a == b

/-- An open document (`view.koDoc`), carrying its display path. -/
structure KoDoc where
  displayPath : Str
deriving DecidableEq

/-- A view of the window's view hierarchy; `koDoc` may be absent. -/
structure KView where
  koDoc : Option KoDoc
deriving DecidableEq

/-- Environment of `displayPath`: the platform case rule and
`ko.views.manager.topView.getViewsByType(true, viewType)`. -/
structure DPEnv where
  platformCI : Bool
  getViewsByType : Str → List KView

/-- Observable effects of one `displayPath` call: the views made current,
the synchronous callback invocations, and the fallback
`ko.open.URI(displayPath, viewType, true, callback)` request (with its
resolved view type and whether a callback was forwarded), if issued. -/
structure DPResult where
  madeCurrent : List KView := []
  cbCalls : List KView := []
  fallback : Option (Str × Str × Bool) := none
deriving DecidableEq

/-- Whether a view holds a document whose display path `_fequal`-matches. -/
def viewMatches (ci : Bool) (path : Str) (v : KView) : Bool :=
  match v.koDoc with
  | some d => fequal ci d.displayPath path
  | none => false

/-- The view-scan loop (lines 394-406): every matching view is made
current; the scan stops early (returning the match) only when a callback
is present. -/
def dpLoop (ci : Bool) (cb : Bool) (path : Str) :
    List KView → List KView × Option KView
  | [] => ([], none)
  | v :: rest =>
    match v.koDoc with
    | none => dpLoop ci cb path rest
    | some d =>
      if fequal ci d.displayPath path then
        if cb then ([v], some v)
        else
          let r := dpLoop ci cb path rest
          (v :: r.1, r.2)
      else dpLoop ci cb path rest

/-- The view-type default of line 388: `"editor"` when absent or falsy. -/
def resolveViewType (vt0 : Option Str) : Str :=
  if optFalsy vt0 then strL "editor" else vt0.getD []

/-- Model of `open_openDisplayPath` (lines 385-410). Note that reaching the end of
the loop — in particular whenever no callback was supplied, even after a
match was found and made current — falls through to the
`ko.open.URI` fallback. -/
def displayPath (env : DPEnv) (path : Str) (vt0 : Option Str) (cb : Bool) : DPResult :=
  let vt := resolveViewType vt0
  let r := dpLoop env.platformCI cb path (env.getViewsByType vt)
  match r.2 with
  | some v => { madeCurrent := r.1, cbCalls := [v], fallback := none }
  | none => { madeCurrent := r.1, cbCalls := [], fallback := some (path, vt, cb) }

-- ### `ko.open.multipleURIs` (lines 425-484)

/-- Answers to `ko.dialogs.yesNoCancel`. -/
inductive YNC | yes | no | cancel
deriving DecidableEq

/-- Environment of `multipleURIs`: the remembered `opened_files` list of
the `viewStateMRU` preference scope per URL (empty when the URL has no
persisted view state), and the user's answer to the reopen prompt. -/
structure MultiEnv where
  remembered : Str → List Str
  yesNoCancel : YNC

/-- Observable effects of one `multipleURIs` call: the sequential
single-open calls `(url, viewType, isRecent)` issued via
`ko.open.URI`/`ko.open.recentURI` (each with
`skipRecentOpenFeature = true`), whether batch mode was engaged, and
whether the reopen prompt was shown. -/
structure MultiResult where
  opens : List (Str × Option Str × Bool) := []
  batch : Bool := false
  prompted : Bool := false
deriving DecidableEq

/-- The `projectFiles` accumulation loop (lines 434-447). -/
def projectFilesOf (env : MultiEnv) (urls : List Str) : List Str :=
  urls.foldl (fun acc u => acc ++ env.remembered u) []

/-- Model of `open_openMultipleURIs` (lines 425-484). `Cancel` aborts the whole
batch before any open; `Yes` appends the remembered files to the URL list;
the resulting list is opened sequentially. -/
def multipleURIs (env : MultiEnv) (urls : List Str) (vt : Option Str)
    (isRecent : Bool) : MultiResult :=
  if urls.isEmpty then {} else
  let projectFiles := projectFilesOf env urls
  if projectFiles.length > 0 then
    match env.yesNoCancel with
    | .cancel => { prompted := true }
    | .yes =>
      let urls2 := urls ++ projectFiles
      { prompted := true, batch := urls2.length > 1,
        opens := urls2.map (fun u => (u, vt, isRecent)) }
    | .no =>
      { prompted := true, batch := urls.length > 1,
        opens := urls.map (fun u => (u, vt, isRecent)) }
  else { batch := urls.length > 1, opens := urls.map (fun u => (u, vt, isRecent)) }

end KoOpen

-- ### The dynamic-button registry (dynamic-button.js)

namespace DynamicButton

/-- A JavaScript string-or-absent value is falsy when absent or empty. -/
def jsFalsy : Option Str → Bool
  | none => true
  | some s => s.isEmpty

/-- Evaluation of `a || b` on string-or-absent values. -/
def jsOr (a b : Option Str) : Option Str := if jsFalsy a then b else a

/-- The data-carrying option fields of a dynamic button spec (functions —
`command`, `isEnabled`, `menuitems` — are external behaviour and are not
needed by the registry bookkeeping modelled here). An absent field is
`none`. -/
structure BtnOpts where
  id : Option Str := none
  label : Option Str := none
  tooltip : Option Str := none
  icon : Option Str := none
  image : Option Str := none
  classList : Str := []
  group : Option Str := none
  events : Option (List Str) := none
deriving DecidableEq

/-- A registered widget: the option record after `_.extend` with the
defaults of `register` (lines 516-529). -/
structure Widget where
  opts : BtnOpts
deriving DecidableEq

/-- The module state: the process-wide `buttons` map (insertion-ordered),
the persisted `ss.storage.buttons` hide flags, and the mounted toolbar
DOM nodes (`dynamicBtn-<id>` elements). -/
structure RegState where
  buttons : List (Str × Widget) := []
  storage : List (Str × Bool) := []
  dom : List Str := []
deriving DecidableEq

/-- Errors thrown by `register`/`unregister`. `typeErr` is the TypeError
of `(opts.id || label).replace` when both are absent. -/
inductive RegErr
  | duplicate (id : Str)
  | missing (id : Str)
  | typeErr
deriving DecidableEq

/-- Test `id in buttons`. -/
def hasId (st : RegState) (id : Str) : Bool := st.buttons.any (fun p => p.1 == id)

/-- Here `\W` is `[^A-Za-z0-9_]`; `.replace(/\W+/g, "")` keeps the word
characters. -/
def stripNonWord (s : Str) : Str := s.filter (fun c => c.isAlphanum || c == '_')

/-- The first argument of `register` : a label string or a spec object
(lines 499-503: when it is an object it becomes `opts` and the label is
`opts.label || opts.id`). -/
inductive LabelOrSpec
  | lbl (s : Str)
  | spec (o : BtnOpts)
deriving DecidableEq

/-- Resolution of `(label, opts)` and the raw id `(opts.id || label)`
(lines 499-505), before `\W` stripping. -/
def resolveRawId (arg : LabelOrSpec) (opts0 : BtnOpts) : Option Str × Option Str × BtnOpts :=
  let lo : Option Str × BtnOpts :=
    match arg with
    | .lbl s => (some s, opts0)
    | .spec o => (jsOr o.label o.id, o)
  (jsOr lo.2.id lo.1, lo.1, lo.2)

/-- Model of `this.register(label, opts)` (lines 497-536). On success the new
widget is appended under the normalized id, a fresh (hide = false)
persisted record is created for ids not seen before, and the DOM node is
mounted; a duplicate id throws before any mutation. -/
def register (st : RegState) (arg : LabelOrSpec) (opts0 : BtnOpts) :
    RegState × Except RegErr Str :=
  match resolveRawId arg opts0 with
  | (none, _, _) => (st, .error .typeErr)
  | (some rawId, label, opts) =>
    let id := stripNonWord rawId
    if hasId st id then
      (st, .error (.duplicate id))
    else
      let icon : Option Str :=
        match opts.icon with
        | some i => some i
        | none => if jsFalsy opts.image then some (strL "question4") else none
      let opts2 : BtnOpts := {
        id := some id,
        group := match opts.group with
          | some g => some g
          | none => some id,
        label := match opts.label with
          | some l => some l
          | none => label,
        tooltip := match opts.tooltip with
          | some t => some t
          | none => label,
        icon := icon,
        image := opts.image,
        classList := opts.classList,
        events := match opts.events with
          | some es => some es
          | none => some [strL "current_place_opened", strL "project_opened",
                          strL "workspace_restored"] }
      let storage2 := if (st.storage.lookup id).isNone
        then st.storage ++ [(id, false)] else st.storage
      ({ buttons := st.buttons ++ [(id, ⟨opts2⟩)],
         storage := storage2,
         dom := st.dom ++ [id] }, .ok id)

/-- Model of `this.unregister(id)` (lines 545-553): throws for an unknown id;
otherwise calls the widget's `unregister`, which is only
`button.remove()` (line 404-407) — the DOM node goes away but the
`buttons` registry entry and the persisted record are left in place. -/
def unregister (st : RegState) (id : Str) : RegState × Except RegErr Unit :=
  if hasId st id then
    ({ st with dom := st.dom.filter (fun d => !(d == id)) }, .ok ())
  else
    (st, .error (.missing id))

-- ### The debounced `update` cycle (lines 190-214)

/-- Timer-and-counter state of one widget's `update` debouncing: the
deadline of the pending `setTimeout` (if any) and the number of
recomputations of the enabled/collapsed state performed so far. -/
structure UpdState where
  pending : Option Nat := none
  recomputes : Nat := 0
deriving DecidableEq

/-- Event-loop timer semantics: a pending timer whose deadline has passed
by time `t` fires (performing the forced recomputation it was scheduled
with) before anything else happens at `t`. -/
def firePending (s : UpdState) (t : Nat) : UpdState :=
  match s.pending with
  | some dl => if dl ≤ t then { pending := none, recomputes := s.recomputes + 1 } else s
  | none => s

/-- Model of `this.update(now)` called at time `t`: `now !== true` clears any
pending timer and re-schedules 250ms out (lines 193-198); `now === true`
recomputes synchronously, leaving any pending timer in place. -/
def update (s : UpdState) (t : Nat) (now : Bool) : UpdState :=
  let s1 := firePending s t
  if now then { s1 with recomputes := s1.recomputes + 1 }
  else { pending := some (t + 250), recomputes := s1.recomputes }

/-- Run a sequence of `(time, now)` update requests (times nondecreasing)
from the idle state. -/
def runUpdates (reqs : List (Nat × Bool)) : UpdState :=
  reqs.foldl (fun s r => update s r.1 r.2) {}

/-- Total number of recomputations once any still-pending timer has
eventually fired. -/
def finalRecomputes (reqs : List (Nat × Bool)) : Nat :=
  let s := runUpdates reqs
  match s.pending with
  | some _ => s.recomputes + 1
  | none => s.recomputes

end DynamicButton

namespace KoOpen

-- ### Branch-exclusion lemmas: an extension pattern that is suffix-
-- incompatible with every special-branch pattern forces the dispatcher
-- into the default document branch.

/-- The end-anchored extension patterns of the special branches of
`URIAtLine`, in dispatch order. -/
def branchPats : List Str :=
  [strL ".kpf", strL ".komodoproject", strL ".xpi", strL ".kpz",
   strL ".ksf", strL ".sublime-snippet", strL ".komodotool", strL ".ktf"]

/-- Pattern `pat` is suffix-incomparable with every special-branch pattern. -/
def clearOf (pat : Str) : Bool :=
  branchPats.all (fun q => !(pat.isSuffixOf q) && !(q.isSuffixOf pat))

theorem branch_matchers_false {u pat : Str} (h : endsWithCI u pat = true)
    (hcl : clearOf pat = true) :
    matchProject u = false ∧ matchXpi u = false ∧ matchKpz u = false ∧
    matchKsf u = false ∧ matchSublime u = false ∧ matchKomodoTool u = false := by
  simp only [clearOf, branchPats, List.all_cons, List.all_nil, Bool.and_eq_true,
    Bool.not_eq_true', and_true] at hcl
  obtain ⟨⟨h1a, h1b⟩, ⟨h2a, h2b⟩, ⟨h3a, h3b⟩, ⟨h4a, h4b⟩,
          ⟨h5a, h5b⟩, ⟨h6a, h6b⟩, ⟨h7a, h7b⟩, ⟨h8a, h8b⟩⟩ := hcl
  refine ⟨?_, ?_, ?_, ?_, ?_, ?_⟩
  · unfold matchProject
    rw [endsWithCI_excl h h1a h1b, endsWithCI_excl h h2a h2b]
    rfl
  · exact endsWithCI_excl h h3a h3b
  · exact endsWithCI_excl h h4a h4b
  · exact endsWithCI_excl h h5a h5b
  · exact endsWithCI_excl h h6a h6b
  · unfold matchKomodoTool
    rw [endsWithCI_excl h h7a h7b, endsWithCI_excl h h8a h8b]
    rfl

/-- A dot-extension suffix whose length differs from all of `db`,
`sqlite`, `sqlite3` rules out the database branch. -/
theorem dbExtHit_false {u rest : Str}
    (h : endsWithCI u ('.' :: rest) = true)
    (hnd : ∀ c ∈ rest, c ≠ '.')
    (hlen : rest.length ≠ 2 ∧ rest.length ≠ 6 ∧ rest.length ≠ 7) :
    dbExtHit u = false := by
  obtain ⟨e, he, hel⟩ := afterLastDot_of_endsWithCI h hnd
  unfold dbExtHit
  rw [he]
  dsimp only
  cases hc : dbExts.contains e with
  | false => exact Bool.and_false _
  | true =>
    exfalso
    have hmem : e ∈ dbExts := by
      obtain ⟨b, hb, hbe⟩ := List.contains_iff_exists_mem_beq.mp hc
      rw [eq_of_beq hbe]
      exact hb
    simp only [dbExts, List.mem_cons, List.not_mem_nil, or_false] at hmem
    rcases hmem with rfl | rfl | rfl
    · exact hlen.1 (hel.symm.trans (by decide))
    · exact hlen.2.1 (hel.symm.trans (by decide))
    · exact hlen.2.2 (hel.symm.trans (by decide))

/-- Bundled exclusion for one media extension pattern. -/
theorem media_case {u pat rest : Str} (hpe : pat = '.' :: rest)
    (h : endsWithCI u pat = true) (hcl : clearOf pat = true)
    (hnd : ∀ c ∈ rest, c ≠ '.')
    (hlen : rest.length ≠ 2 ∧ rest.length ≠ 6 ∧ rest.length ≠ 7) :
    matchProject u = false ∧ matchXpi u = false ∧ matchKpz u = false ∧
    matchKsf u = false ∧ matchSublime u = false ∧ matchKomodoTool u = false ∧
    dbExtHit u = false := by
  obtain ⟨m1, m2, m3, m4, m5, m6⟩ := branch_matchers_false h hcl
  exact ⟨m1, m2, m3, m4, m5, m6, dbExtHit_false (hpe ▸ h) hnd hlen⟩

/-- A URI with an image or audio extension reaches the default branch:
every special matcher and the database extension test are false. -/
theorem media_branches_clear {u : Str} (h : (isImageUrl u || isAudioUrl u) = true) :
    matchProject u = false ∧ matchXpi u = false ∧ matchKpz u = false ∧
    matchKsf u = false ∧ matchSublime u = false ∧ matchKomodoTool u = false ∧
    dbExtHit u = false := by
  unfold isImageUrl isAudioUrl at h
  simp only [List.any_cons, List.any_nil, Bool.or_eq_true, Bool.or_false] at h
  rcases h with ((h | h | h | h | h | h) | h)
  · exact media_case rfl h (by decide) (by decide) ⟨by decide, by decide, by decide⟩
  · exact media_case rfl h (by decide) (by decide) ⟨by decide, by decide, by decide⟩
  · exact media_case rfl h (by decide) (by decide) ⟨by decide, by decide, by decide⟩
  · exact media_case rfl h (by decide) (by decide) ⟨by decide, by decide, by decide⟩
  · exact media_case rfl h (by decide) (by decide) ⟨by decide, by decide, by decide⟩
  · exact media_case rfl h (by decide) (by decide) ⟨by decide, by decide, by decide⟩
  · exact media_case rfl h (by decide) (by decide) ⟨by decide, by decide, by decide⟩

end KoOpen

namespace KoOpen

-- ### Stepping lemmas for `URIAtLine`

theorem promptPhase_no_prompt (env : OpenEnv) (E : Effects) {u : Str} (vt : Option Str)
    (h4 : matchKsf u = false) (h5 : matchSublime u = false)
    (h6 : matchKomodoTool u = false) :
    promptPhase env E u vt =
      (E, .ok (.cont (if optFalsy vt && (isImageUrl u || isAudioUrl u)
                      then some (strL "browser") else vt))) := by
  unfold promptPhase
  rw [if_neg (by simp [h4]), if_neg (by simp [h5]), if_neg (by simp [h6])]
  split <;> rfl

theorem defaultPhase_skip_open (env : OpenEnv) (E : Effects) (u : Str) (lineno : LineVal)
    (vt : Option Str) (cb : Bool)
    (hopen : env.doFileOpen (mkOpenCall u lineno vt cb) = .ok ()) :
    defaultPhase env E true u lineno vt cb
      = ({ E with skip := false, opens := E.opens ++ [mkOpenCall u lineno vt cb] },
         .ok ()) := by
  simp [defaultPhase, hopen]

theorem defaultPhase_prompt_open (env : OpenEnv) (E : Effects) (u : Str) (lineno : LineVal)
    (vt : Option Str) (cb : Bool) (E1 : Effects) (vt2 : Option Str)
    (hp : promptPhase env E u vt = (E1, .ok (.cont vt2)))
    (hopen : env.doFileOpen (mkOpenCall u lineno vt2 cb) = .ok ()) :
    defaultPhase env E false u lineno vt cb
      = ({ E1 with skip := false, opens := E1.opens ++ [mkOpenCall u lineno vt2 cb] },
         .ok ()) := by
  simp [defaultPhase, hp, hopen]

theorem URIAtLineInner_default (env : OpenEnv) (skip0 : Bool) (uri0 : Str)
    (lineno0 : LineVal) (vt : Option Str) (sr cb : Bool) {u0 u : Str} {lineno : LineVal}
    (hpath : env.pathToURI uri0 = .ok u0)
    (hstrip : stripLine u0 lineno0 = (u, lineno))
    (hm1 : matchProject u = false) (hm2 : matchXpi u = false) (hm3 : matchKpz u = false)
    (hdb : dbExtHit u = false) :
    URIAtLineInner env skip0 uri0 lineno0 vt sr cb
      = defaultPhase env { skip := skip0 } skip0 u lineno vt cb := by
  unfold URIAtLineInner
  rw [hpath]
  simp only [hstrip, hm1, hm2, hm3, hdb, Bool.and_false, Bool.false_eq_true, if_false]

theorem URIAtLine_of_inner_ok {env : OpenEnv} {skip0 : Bool} {uri : Str} {lineno : LineVal}
    {vt : Option Str} {sr cb : Bool} {E : Effects}
    (h : URIAtLineInner env skip0 uri lineno vt sr cb = (E, .ok ())) :
    URIAtLine env skip0 uri lineno vt sr cb = E := by
  unfold URIAtLine
  rw [h]

-- ### No open request survives an exception that reaches the boundary

theorem promptPhase_opens (env : OpenEnv) (E : Effects) (u : Str) (vt : Option Str) :
    (promptPhase env E u vt).1.opens = E.opens := by
  unfold promptPhase
  repeat' split
  all_goals rfl

theorem defaultPhase_error_opens {env : OpenEnv} {E : Effects} {skip0 : Bool} {u : Str}
    {lineno : LineVal} {vt : Option Str} {cb : Bool} {E' : Effects} {e : Err}
    (h : defaultPhase env E skip0 u lineno vt cb = (E', .error e)) :
    E'.opens = E.opens := by
  unfold defaultPhase at h
  dsimp only at h
  split at h
  next E1 e1 heq =>
    obtain ⟨rfl, h2⟩ := Prod.mk.injEq .. ▸ h
    cases h2
    split at heq
    · obtain ⟨rfl, h3⟩ := Prod.mk.injEq .. ▸ heq
      cases h3
    · have hpo := promptPhase_opens env E u vt
      rw [heq] at hpo
      exact hpo
  next E1 heq =>
    obtain ⟨_, h2⟩ := Prod.mk.injEq .. ▸ h
    cases h2
  next E1 vt2 heq =>
    split at h
    next e1 hfo =>
      obtain ⟨rfl, h2⟩ := Prod.mk.injEq .. ▸ h
      cases h2
      show ({ E1 with skip := false } : Effects).opens = E.opens
      split at heq
      · obtain ⟨rfl, h3⟩ := Prod.mk.injEq .. ▸ heq
        rfl
      · have hpo := promptPhase_opens env E u vt
        rw [heq] at hpo
        exact hpo
    next hfo =>
      obtain ⟨_, h2⟩ := Prod.mk.injEq .. ▸ h
      cases h2

theorem URIAtLineInner_error_opens {env : OpenEnv} {skip0 : Bool} {uri : Str}
    {lineno : LineVal} {vt : Option Str} {sr cb : Bool} {E : Effects} {e : Err}
    (h : URIAtLineInner env skip0 uri lineno vt sr cb = (E, .error e)) :
    E.opens = [] := by
  unfold URIAtLineInner at h
  dsimp only at h
  split at h
  · obtain ⟨rfl, h2⟩ := Prod.mk.injEq .. ▸ h
    rfl
  · split at h
    · split at h
      · obtain ⟨rfl, h2⟩ := Prod.mk.injEq .. ▸ h
        rfl
      · obtain ⟨_, h2⟩ := Prod.mk.injEq .. ▸ h
        cases h2
    · split at h
      · split at h
        · obtain ⟨rfl, h2⟩ := Prod.mk.injEq .. ▸ h
          rfl
        · obtain ⟨_, h2⟩ := Prod.mk.injEq .. ▸ h
          cases h2
      · split at h
        · split at h
          · obtain ⟨rfl, h2⟩ := Prod.mk.injEq .. ▸ h
            rfl
          · obtain ⟨_, h2⟩ := Prod.mk.injEq .. ▸ h
            cases h2
        · split at h
          · obtain ⟨rfl, h2⟩ := Prod.mk.injEq .. ▸ h
            cases h2
            split
            · rfl
            · rfl
          · obtain ⟨_, h2⟩ := Prod.mk.injEq .. ▸ h
            cases h2
          · have hde := defaultPhase_error_opens h
            rw [hde]
            split
            · rfl
            · rfl

end KoOpen

namespace DynamicButton

-- ### Debounce-burst lemma

theorem burst_fold (ts : List Nat) (t0 n : Nat)
    (h : List.Chain (fun a b => a ≤ b ∧ b < a + 250) t0 ts) :
    ∃ t1, List.foldl (fun s r => update s r.1 r.2)
        { pending := some (t0 + 250), recomputes := n }
        (ts.map (fun t => (t, false)))
      = { pending := some (t1 + 250), recomputes := n } := by
  induction ts generalizing t0 with
  | nil => exact ⟨t0, rfl⟩
  | cons t1 ts' ih =>
    cases h with
    | cons hR hch =>
      obtain ⟨hle, hlt⟩ := hR
      simp only [List.map_cons, List.foldl_cons]
      have hnot : ¬ (t0 + 250 ≤ t1) := by omega
      have hstep : update { pending := some (t0 + 250), recomputes := n } t1 false
          = { pending := some (t1 + 250), recomputes := n } := by
        simp [update, firePending, hnot]
      rw [hstep]
      exact ih t1 hch

/-- C7: within one debounce burst — a nonempty sequence of non-forced
refresh requests at nondecreasing times, each arriving less than 250ms
after the previous one — exactly one recomputation of the
enabled/collapsed state occurs (each request resets the pending timer,
which fires once after the burst); and a forced request
(`update(true)`) recomputes synchronously at once, regardless of any
pending debounce timer. -/
theorem C7_debounce_single_recompute (t0 : Nat) (ts : List Nat)
    (h : List.Chain (fun a b => a ≤ b ∧ b < a + 250) t0 ts) :
    finalRecomputes ((t0 :: ts).map (fun t => (t, false))) = 1 ∧
    ∀ (s : UpdState) (t : Nat), s.recomputes < (update s t true).recomputes := by
  constructor
  · unfold finalRecomputes runUpdates
    simp only [List.map_cons, List.foldl_cons]
    have h0 : update {} t0 false = { pending := some (t0 + 250), recomputes := 0 } := by
      simp [update, firePending]
    rw [h0]
    obtain ⟨t1, hfold⟩ := burst_fold ts t0 0 h
    rw [hfold]
  · intro s t
    have hmono : s.recomputes ≤ (firePending s t).recomputes := by
      unfold firePending
      split
      · split
        · exact Nat.le_succ _
        · exact Nat.le_refl _
      · exact Nat.le_refl _
    have hupd : update s t true
        = { firePending s t with recomputes := (firePending s t).recomputes + 1 } := by
      simp [update]
    rw [hupd]
    exact Nat.lt_succ_of_le hmono

/-- Witness for C7 at the concrete burst 0ms, 100ms, 200ms. -/
theorem C7_debounce_single_recompute_witness :
    finalRecomputes ([0, 100, 200].map (fun t => (t, false))) = 1 ∧
    ∀ (s : UpdState) (t : Nat), s.recomputes < (update s t true).recomputes :=
  C7_debounce_single_recompute 0 [100, 200]
    (List.Chain.cons ⟨by omega, by omega⟩
      (List.Chain.cons ⟨by omega, by omega⟩ List.Chain.nil))

-- ### C1 / C4: registry register/unregister bookkeeping

/-- The registry state after `register("foo", {})`. -/
def st1 : RegState := (register {} (.lbl (strL "foo")) {}).1

/-- The state after then calling `unregister("foo")`. -/
def st2 : RegState := (unregister st1 (strL "foo")).1

/-- C1 (code bug): `unregister("foo")` after `register("foo", {})`
returns without error, but the widget's own `unregister` only removes the
DOM node (`button.remove()`) and never deletes `buttons[id]`; the id is
still registered afterwards, so a second `register("foo", {})` throws the
duplicate-id error instead of succeeding — contradicting both the claim
and the module's own register/unregister contract. Unregistering an
absent id does raise an error, as claimed. -/
theorem C1_unregister_code_bug :
    (unregister st1 (strL "foo")).2 = .ok () ∧
    hasId st2 (strL "foo") = true ∧
    (register st2 (.lbl (strL "foo")) {}).2 = .error (.duplicate (strL "foo")) ∧
    (unregister ({} : RegState) (strL "bar")).2 = .error (.missing (strL "bar")) :=
  ⟨rfl, rfl, rfl, rfl⟩

/-- C4 counterexample: the claim states that with an explicit id the
registry key is "the explicit id itself", but `register` applies the
`\W`-stripping to the explicit id too (line 505:
`(opts.id || label).replace(/\W+/g, "")`): registering with
`id: "a-b"` stores the widget under `"ab"`, not `"a-b"`. -/
theorem C4_counterexample :
    hasId (register {} (.lbl (strL "X")) { id := some (strL "a-b") }).1 (strL "a-b")
        = false ∧
    hasId (register {} (.lbl (strL "X")) { id := some (strL "a-b") }).1 (strL "ab")
        = true := by
  decide

/-- C4 (amended): `register` stores exactly one widget keyed by the
normalized id — the explicit id when given, otherwise the label, in
either case with non-word characters stripped; registering an id already
present raises the duplicate error and returns with the registry and the
persisted per-id state completely unchanged (the throw happens before any
mutation). -/
theorem C4_register_normalized_id (st : RegState) (arg : LabelOrSpec) (opts0 : BtnOpts)
    (raw : Str) (lbl : Option Str) (o : BtnOpts)
    (hres : resolveRawId arg opts0 = (some raw, lbl, o)) :
    (hasId st (stripNonWord raw) = false →
      ∃ w, (register st arg opts0).1.buttons
            = st.buttons ++ [(stripNonWord raw, w)] ∧
           (register st arg opts0).2 = .ok (stripNonWord raw)) ∧
    (hasId st (stripNonWord raw) = true →
      register st arg opts0 = (st, .error (.duplicate (stripNonWord raw)))) := by
  unfold register
  rw [hres]
  dsimp only
  constructor
  · intro hnew
    rw [if_neg (by simp [hnew])]
    exact ⟨_, rfl, rfl⟩
  · intro hdup
    rw [if_pos hdup]

/-- Witness for C4's amended theorem: registering `"foo"` in the empty
registry stores one widget under `"foo"`. -/
theorem C4_register_normalized_id_witness :
    (hasId {} (stripNonWord (strL "foo")) = false →
      ∃ w, (register {} (.lbl (strL "foo")) {}).1.buttons
            = ({} : RegState).buttons ++ [(stripNonWord (strL "foo"), w)] ∧
           (register {} (.lbl (strL "foo")) {}).2 = .ok (stripNonWord (strL "foo"))) ∧
    (hasId {} (stripNonWord (strL "foo")) = true →
      register {} (.lbl (strL "foo")) {} = ({}, .error (.duplicate (stripNonWord (strL "foo"))))) :=
  C4_register_normalized_id {} (.lbl (strL "foo")) {} (strL "foo") (some (strL "foo")) {} rfl

end DynamicButton

namespace KoOpen

-- ### C2: displayPath refocus behaviour

theorem dpLoop_finds {ci : Bool} {path : Str} (views : List KView)
    (hex : views.any (viewMatches ci path) = true) :
    ∃ v, dpLoop ci true path views = ([v], some v) ∧ viewMatches ci path v = true := by
  induction views with
  | nil => cases hex
  | cons v rest ih =>
    simp only [List.any_cons, Bool.or_eq_true] at hex
    cases hv : v.koDoc with
    | none =>
      have hex' : rest.any (viewMatches ci path) = true := by
        rcases hex with hm | hex
        · unfold viewMatches at hm; rw [hv] at hm; cases hm
        · exact hex
      obtain ⟨w, hw, hwm⟩ := ih hex'
      refine ⟨w, ?_, hwm⟩
      unfold dpLoop
      rw [hv]
      exact hw
    | some d =>
      by_cases hf : fequal ci d.displayPath path = true
      · refine ⟨v, ?_, ?_⟩
        · unfold dpLoop
          rw [hv]
          dsimp only
          rw [if_pos hf]
          rfl
        · unfold viewMatches
          rw [hv]
          exact hf
      · have hex' : rest.any (viewMatches ci path) = true := by
          rcases hex with hm | hex
          · exfalso
            unfold viewMatches at hm
            rw [hv] at hm
            exact hf hm
          · exact hex
        obtain ⟨w, hw, hwm⟩ := ih hex'
        refine ⟨w, ?_, hwm⟩
        unfold dpLoop
        rw [hv]
        dsimp only
        rw [if_neg hf]
        exact hw

/-- C2 counterexample: one editor view whose document's display path
matches, but no callback supplied. The matching view is made current,
yet the loop's early `return` sits inside `if (callback)`, so the
function falls through to the `ko.open.URI` fallback anyway — an open
request is issued even though the path is already open, refuting the
"no fallback open request is issued ... including when no callback is
supplied" part of the claim. -/
theorem C2_counterexample :
    (displayPath { platformCI := false, getViewsByType := fun _ => [⟨some ⟨strL "a.txt"⟩⟩] }
        (strL "a.txt") none false).fallback
      = some (strL "a.txt", strL "editor", false) ∧
    (displayPath { platformCI := false, getViewsByType := fun _ => [⟨some ⟨strL "a.txt"⟩⟩] }
        (strL "a.txt") none false).madeCurrent
      = [⟨some ⟨strL "a.txt"⟩⟩] :=
  ⟨rfl, rfl⟩

/-- C2 (amended): when a callback IS supplied and some view of the
requested type holds a document whose display path matches, `displayPath`
makes exactly the first matching view current, invokes the callback with
that view, and issues no fallback open request; without a callback the
matching views are refocused but the fallback `ko.open.URI` request is
still issued (deduplication is then left to the underlying open path). -/
theorem C2_displayPath_refocus (env : DPEnv) (path : Str) (vt0 : Option Str)
    (hex : (env.getViewsByType (resolveViewType vt0)).any
             (viewMatches env.platformCI path) = true) :
    ∃ v, displayPath env path vt0 true
          = { madeCurrent := [v], cbCalls := [v], fallback := none } ∧
         viewMatches env.platformCI path v = true := by
  obtain ⟨v, hv, hvm⟩ := dpLoop_finds _ hex
  refine ⟨v, ?_, hvm⟩
  unfold displayPath
  dsimp only
  rw [hv]

/-- Witness for C2's amended theorem at a one-view environment. -/
theorem C2_displayPath_refocus_witness :
    ∃ v, displayPath { platformCI := false, getViewsByType := fun _ => [⟨some ⟨strL "a.txt"⟩⟩] }
          (strL "a.txt") none true
          = { madeCurrent := [v], cbCalls := [v], fallback := none } ∧
         viewMatches false (strL "a.txt") v = true :=
  C2_displayPath_refocus
    { platformCI := false, getViewsByType := fun _ => [⟨some ⟨strL "a.txt"⟩⟩] }
    (strL "a.txt") none rfl

-- ### C8: batch open

/-- C8: for a nonempty URL batch whose remembered previously-open file
lists are nonempty, answering Cancel to the reopen prompt aborts the
whole batch with zero single-open calls, and answering Yes issues exactly
`N + (count of remembered files)` single-open calls, sequentially: first
the requested URLs in order, then the remembered files in order. -/
theorem C8_multipleURIs_batch (env : MultiEnv) (urls : List Str) (vt : Option Str)
    (isRecent : Bool) (hne : urls ≠ []) (hpf : projectFilesOf env urls ≠ []) :
    (env.yesNoCancel = .cancel → (multipleURIs env urls vt isRecent).opens = []) ∧
    (env.yesNoCancel = .yes →
      (multipleURIs env urls vt isRecent).opens
        = (urls ++ projectFilesOf env urls).map (fun u => (u, vt, isRecent)) ∧
      (multipleURIs env urls vt isRecent).opens.length
        = urls.length + (projectFilesOf env urls).length) := by
  have hie : urls.isEmpty = false := List.isEmpty_eq_false.mpr hne
  have hlen : (projectFilesOf env urls).length > 0 := List.length_pos.mpr hpf
  constructor
  · intro hc
    unfold multipleURIs
    rw [if_neg (by simp [hie])]
    dsimp only
    rw [if_pos hlen, hc]
  · intro hy
    unfold multipleURIs
    rw [if_neg (by simp [hie])]
    dsimp only
    rw [if_pos hlen, hy]
    constructor
    · rfl
    · simp

/-- Witness for C8: one project URL with two remembered files and answer
Yes gives three sequential open calls. -/
theorem C8_multipleURIs_batch_witness :
    (({ remembered := fun _ => [strL "a", strL "b"], yesNoCancel := .yes } : MultiEnv).yesNoCancel
        = .cancel →
      (multipleURIs { remembered := fun _ => [strL "a", strL "b"], yesNoCancel := .yes }
        [strL "p.kpf"] none false).opens = []) ∧
    (({ remembered := fun _ => [strL "a", strL "b"], yesNoCancel := .yes } : MultiEnv).yesNoCancel
        = .yes →
      (multipleURIs { remembered := fun _ => [strL "a", strL "b"], yesNoCancel := .yes }
        [strL "p.kpf"] none false).opens
        = ([strL "p.kpf"] ++ projectFilesOf { remembered := fun _ => [strL "a", strL "b"], yesNoCancel := .yes } [strL "p.kpf"]).map (fun u => (u, none, false)) ∧
      (multipleURIs { remembered := fun _ => [strL "a", strL "b"], yesNoCancel := .yes }
        [strL "p.kpf"] none false).opens.length
        = [strL "p.kpf"].length
          + (projectFilesOf { remembered := fun _ => [strL "a", strL "b"], yesNoCancel := .yes } [strL "p.kpf"]).length) :=
  C8_multipleURIs_batch { remembered := fun _ => [strL "a", strL "b"], yesNoCancel := .yes }
    [strL "p.kpf"] none false (by decide) (by decide)

end KoOpen

namespace KoOpen

-- ### Concrete environments for witnesses

/-- An all-successful concrete environment. -/
def envOk : OpenEnv := {
  pathToURI := fun u => .ok u,
  projectsOpen := fun _ _ => .ok (),
  installAddon := fun _ => .ok (),
  importPackage := fun _ => .ok (),
  dbexplorer := true,
  addSqlite := fun _ => .ok true,
  customButtons := fun _ => .cancel,
  getSchemeNames := .ok [],
  schemeNameIsValid := fun _ => true,
  platformCI := false,
  baseName := fun u => u,
  extOf := fun _ => [],
  promptResponses := [],
  loadScheme := fun _ n => .ok n,
  activateScheme := fun _ => .ok [],
  notifyRestore := .ok (),
  uriToPath := fun u => u,
  importSublime := fun _ => .ok (),
  importTools := fun _ => .ok (),
  doFileOpen := fun _ => .ok () }

/-- Environment `envOk` with a throwing `ko.uriparse.pathToURI`. -/
def envErr : OpenEnv := { envOk with pathToURI := fun _ => .error 7 }

-- ### End-to-end open lemmas for the default branch

theorem URIAtLine_skiptrue_open (env : OpenEnv) (uri0 : Str) (lineno0 : LineVal)
    (vt : Option Str) (sr cb : Bool) {u0 u : Str} {lineno : LineVal}
    (hpath : env.pathToURI uri0 = .ok u0)
    (hstrip : stripLine u0 lineno0 = (u, lineno))
    (hm1 : matchProject u = false) (hm2 : matchXpi u = false) (hm3 : matchKpz u = false)
    (hdb : dbExtHit u = false)
    (hopen : env.doFileOpen (mkOpenCall u lineno vt cb) = .ok ()) :
    URIAtLine env true uri0 lineno0 vt sr cb
      = { skip := false, opens := [mkOpenCall u lineno vt cb] } := by
  have hinner := URIAtLineInner_default env true uri0 lineno0 vt sr cb hpath hstrip
    hm1 hm2 hm3 hdb
  have hdp := defaultPhase_skip_open env { skip := true } u lineno vt cb hopen
  rw [URIAtLine_of_inner_ok (hinner.trans hdp)]
  rfl

theorem URIAtLine_noskip_open (env : OpenEnv) (uri0 : Str) (lineno0 : LineVal)
    (vt : Option Str) (sr cb : Bool) {u0 u : Str} {lineno : LineVal}
    (hpath : env.pathToURI uri0 = .ok u0)
    (hstrip : stripLine u0 lineno0 = (u, lineno))
    (hm1 : matchProject u = false) (hm2 : matchXpi u = false) (hm3 : matchKpz u = false)
    (hdb : dbExtHit u = false)
    (hm4 : matchKsf u = false) (hm5 : matchSublime u = false)
    (hm6 : matchKomodoTool u = false)
    (hcond : (optFalsy vt && (isImageUrl u || isAudioUrl u)) = false)
    (hopen : env.doFileOpen (mkOpenCall u lineno vt cb) = .ok ()) :
    URIAtLine env false uri0 lineno0 vt sr cb
      = { skip := false, opens := [mkOpenCall u lineno vt cb] } := by
  have hinner := URIAtLineInner_default env false uri0 lineno0 vt sr cb hpath hstrip
    hm1 hm2 hm3 hdb
  have hpp : promptPhase env { skip := false } u vt
      = ({ skip := false }, .ok (.cont vt)) := by
    rw [promptPhase_no_prompt env _ vt hm4 hm5 hm6]
    rw [if_neg (by simp [hcond])]
  have hdp := defaultPhase_prompt_open env { skip := false } u lineno vt cb
    { skip := false } vt hpp hopen
  rw [URIAtLine_of_inner_ok (hinner.trans hdp)]
  rfl

theorem URIAtLine_media (env : OpenEnv) (uri0 : Str) (lineno0 : LineVal)
    (vt : Option Str) (sr cb : Bool) {u0 u : Str} {lineno : LineVal}
    (hpath : env.pathToURI uri0 = .ok u0)
    (hstrip : stripLine u0 lineno0 = (u, lineno))
    (hmedia : (isImageUrl u || isAudioUrl u) = true)
    (hvt : optFalsy vt = true)
    (hopen : env.doFileOpen (mkOpenCall u lineno (some (strL "browser")) cb) = .ok ()) :
    URIAtLine env false uri0 lineno0 vt sr cb
      = { skip := false,
          opens := [mkOpenCall u lineno (some (strL "browser")) cb] } := by
  obtain ⟨m1, m2, m3, m4, m5, m6, mdb⟩ := media_branches_clear hmedia
  have hinner := URIAtLineInner_default env false uri0 lineno0 vt sr cb hpath hstrip
    m1 m2 m3 mdb
  have hpp : promptPhase env { skip := false } u vt
      = ({ skip := false }, .ok (.cont (some (strL "browser")))) := by
    rw [promptPhase_no_prompt env _ vt m4 m5 m6]
    rw [if_pos (by rw [hvt, hmedia]; rfl)]
  have hdp := defaultPhase_prompt_open env { skip := false } u lineno vt cb
    { skip := false } (some (strL "browser")) hpp hopen
  rw [URIAtLine_of_inner_ok (hinner.trans hdp)]
  rfl

end KoOpen

namespace KoOpen

-- ### C3: dispatch-boundary failure semantics

/-- C3 (amended): any internal exception that reaches the dispatch
boundary of `URIAtLine` is caught and logged, and the call returns
normally (the embedding is total — no exception crosses the boundary);
no open request has been issued, so the supplied callback was never
handed to the view manager and is not invoked — with a null view
argument or any other. -/
theorem C3_boundary_swallows (env : OpenEnv) (skip0 : Bool) (uri : Str) (lineno : LineVal)
    (vt : Option Str) (sr cb : Bool) (E : Effects) (e : Err)
    (h : URIAtLineInner env skip0 uri lineno vt sr cb = (E, .error e)) :
    (URIAtLine env skip0 uri lineno vt sr cb).opens = [] ∧
    (URIAtLine env skip0 uri lineno vt sr cb).log = E.log ++ [e] := by
  unfold URIAtLine
  rw [h]
  dsimp only
  exact ⟨URIAtLineInner_error_opens h, rfl⟩

/-- Witness for C3's amended theorem: `pathToURI` throws `7`. -/
theorem C3_boundary_swallows_witness :
    (URIAtLine envErr false (strL "a.txt") .noLine none false true).opens = [] ∧
    (URIAtLine envErr false (strL "a.txt") .noLine none false true).log
      = ({ skip := false } : Effects).log ++ [7] :=
  C3_boundary_swallows envErr false (strL "a.txt") .noLine none false true
    { skip := false } 7 rfl

/-- C3 counterexample: with `pathToURI` throwing, the exception is logged
and `URIAtLine` returns normally — but the `opens` list is empty: no
request carrying the callback ever reaches the view manager, and
`URIAtLine` itself never invokes the callback, so the callback cannot
receive a null view argument (it is not invoked at all). This refutes
the claim's "the supplied callback receiving a null view argument". -/
theorem C3_counterexample :
    (URIAtLine envErr false (strL "a.txt") .noLine none false true).opens = [] ∧
    (URIAtLine envErr false (strL "a.txt") .noLine none false true).log = [7] :=
  ⟨rfl, rfl⟩

-- ### C5: embedded line-number suffixes

/-- C5: for a URI of the form `p ++ sep ++ digits` with
`sep ∈ {"#", ":", "%23", "%3A"}` (which includes every form the claim
lists) and no explicit line number, `URIAtLine` strips the suffix — the
path used for classification and the open is `p`, and the effective line
number is the digit string; with an explicit (numeric) line number the
suffix is not interpreted and the URI is left unchanged. The third
conjunct runs the whole dispatcher on the default branch: the open
request carries exactly the stripped path and the captured line. -/
theorem C5_embedded_line_number (env : OpenEnv) (skip0 : Bool) (p sep d : Str) (v : Str)
    (sr cb : Bool)
    (hsep : sep ∈ sepList) (hd : isDigits d = true)
    (hp : p.all (fun c => !isLineTerm c) = true)
    (hpath : env.pathToURI (p ++ sep ++ d) = .ok (p ++ sep ++ d))
    (hm1 : matchProject p = false) (hm2 : matchXpi p = false) (hm3 : matchKpz p = false)
    (hm4 : matchKsf p = false) (hm5 : matchSublime p = false)
    (hm6 : matchKomodoTool p = false)
    (hdb : dbExtHit p = false)
    (hv : v.isEmpty = false)
    (hopen : env.doFileOpen (OpenCall.atLine p (.str d) (some v) cb) = .ok ()) :
    stripLine (p ++ sep ++ d) .noLine = (p, .str d) ∧
    (∀ k : Int, stripLine (p ++ sep ++ d) (.num k) = (p ++ sep ++ d, .num k)) ∧
    (URIAtLine env skip0 (p ++ sep ++ d) .noLine (some v) sr cb).opens
      = [OpenCall.atLine p (.str d) (some v) cb] := by
  have hstrip : stripLine (p ++ sep ++ d) .noLine = (p, .str d) := by
    unfold stripLine
    rw [execLineNo_append hsep hd hp]
  have htr : (LineVal.str d).truthy = true := by
    have hd2 := hd
    simp only [isDigits, Bool.and_eq_true] at hd2
    exact hd2.1
  refine ⟨hstrip, fun k => rfl, ?_⟩
  have hcall : mkOpenCall p (.str d) (some v) cb = OpenCall.atLine p (.str d) (some v) cb := by
    unfold mkOpenCall
    rw [if_pos htr]
  cases skip0 with
  | true =>
    rw [URIAtLine_skiptrue_open env (p ++ sep ++ d) .noLine (some v) sr cb hpath hstrip
      hm1 hm2 hm3 hdb (hcall ▸ hopen)]
    rw [hcall]
  | false =>
    have hcond : (optFalsy (some v) && (isImageUrl p || isAudioUrl p)) = false := by
      rw [show optFalsy (some v) = false from hv]
      exact Bool.false_and _
    rw [URIAtLine_noskip_open env (p ++ sep ++ d) .noLine (some v) sr cb hpath hstrip
      hm1 hm2 hm3 hdb hm4 hm5 hm6 hcond (hcall ▸ hopen)]
    rw [hcall]

end KoOpen

namespace KoOpen

/-- Witness for C5 at `file.txt:42` with no explicit line number. -/
theorem C5_embedded_line_number_witness :
    stripLine (strL "file.txt" ++ strL ":" ++ strL "42") .noLine
      = (strL "file.txt", .str (strL "42")) ∧
    (∀ k : Int, stripLine (strL "file.txt" ++ strL ":" ++ strL "42") (.num k)
      = (strL "file.txt" ++ strL ":" ++ strL "42", .num k)) ∧
    (URIAtLine envOk false (strL "file.txt" ++ strL ":" ++ strL "42") .noLine
        (some (strL "editor")) false false).opens
      = [OpenCall.atLine (strL "file.txt") (.str (strL "42")) (some (strL "editor")) false] :=
  C5_embedded_line_number envOk false (strL "file.txt") (strL ":") (strL "42")
    (strL "editor") false false (by decide) (by decide) (by decide) rfl
    (by decide) (by decide) (by decide) (by decide) (by decide) (by decide) (by decide)
    (by decide) rfl

-- ### C6: skipNextPrompt with a color-scheme file

/-- C6: with the one-shot `skipNextPrompt` flag set and a `.ksf`
color-scheme URI (no explicit line number, no view-type hint), no prompt
is shown, the file is opened as a plain document via the view manager
(one `doFileOpenAsync` request), and the flag is false after the call. -/
theorem C6_skipNextPrompt_ksf (env : OpenEnv) (uri u : Str) (sr cb : Bool)
    (hpath : env.pathToURI uri = .ok u)
    (hksf : endsWithCI u (strL ".ksf") = true)
    (hopen : env.doFileOpen (OpenCall.plain u none cb) = .ok ()) :
    (URIAtLine env true uri .noLine none sr cb).prompts = [] ∧
    (URIAtLine env true uri .noLine none sr cb).opens = [OpenCall.plain u none cb] ∧
    (URIAtLine env true uri .noLine none sr cb).skip = false := by
  have e1 := @endsWithCI_excl u (strL ".ksf") (strL ".kpf") hksf (by decide) (by decide)
  have e2 := @endsWithCI_excl u (strL ".ksf") (strL ".komodoproject") hksf
    (by decide) (by decide)
  have hm1 : matchProject u = false := by
    unfold matchProject
    rw [e1, e2]
    rfl
  have hm2 : matchXpi u = false :=
    @endsWithCI_excl u (strL ".ksf") (strL ".xpi") hksf (by decide) (by decide)
  have hm3 : matchKpz u = false :=
    @endsWithCI_excl u (strL ".ksf") (strL ".kpz") hksf (by decide) (by decide)
  have hdb : dbExtHit u = false :=
    @dbExtHit_false u (strL "ksf") hksf (by decide) ⟨by decide, by decide, by decide⟩
  have hstrip : stripLine u .noLine = (u, .noLine) := by
    unfold stripLine
    rw [@execLineNo_none_of_endsWithCI u (strL ".ksf") 'f' hksf (by decide) (by decide)]
  rw [URIAtLine_skiptrue_open env uri .noLine none sr cb hpath hstrip hm1 hm2 hm3 hdb hopen]
  exact ⟨rfl, rfl, rfl⟩

/-- Witness for C6 at `scheme.ksf`. -/
theorem C6_skipNextPrompt_ksf_witness :
    (URIAtLine envOk true (strL "scheme.ksf") .noLine none false true).prompts = [] ∧
    (URIAtLine envOk true (strL "scheme.ksf") .noLine none false true).opens
      = [OpenCall.plain (strL "scheme.ksf") none true] ∧
    (URIAtLine envOk true (strL "scheme.ksf") .noLine none false true).skip = false :=
  C6_skipNextPrompt_ksf envOk (strL "scheme.ksf") (strL "scheme.ksf") false true
    rfl (by decide) rfl

-- ### C9: image/audio preview view type

/-- C9 (amended): with no explicit view-type hint, when the one-shot
`skipNextPrompt` flag is NOT set and the (line-suffix-stripped) path
matches a known image (`.png .gif .jpg .jpeg .bmp .ico`) or audio
(`.mp3`) extension, the dispatcher opens it with the preview `"browser"`
view type instead of the default editor type. (When the flag is set the
whole prompt block, including this preview defaulting, is skipped.) -/
theorem C9_media_preview_type (env : OpenEnv) (uri : Str) (lineno0 : LineVal)
    (sr cb : Bool) {u0 u : Str} {l : LineVal}
    (hpath : env.pathToURI uri = .ok u0)
    (hstrip : stripLine u0 lineno0 = (u, l))
    (hmedia : (isImageUrl u || isAudioUrl u) = true)
    (hopen : env.doFileOpen (mkOpenCall u l (some (strL "browser")) cb) = .ok ()) :
    (URIAtLine env false uri lineno0 none sr cb).opens
      = [mkOpenCall u l (some (strL "browser")) cb] := by
  rw [URIAtLine_media env uri lineno0 none sr cb hpath hstrip hmedia rfl hopen]

/-- Witness for C9's amended theorem at `a.png`. -/
theorem C9_media_preview_type_witness :
    (URIAtLine envOk false (strL "a.png") .noLine none false false).opens
      = [mkOpenCall (strL "a.png") .noLine (some (strL "browser")) false] :=
  C9_media_preview_type envOk (strL "a.png") .noLine false false rfl rfl
    (by decide) rfl

/-- C9 counterexample: with the one-shot `skipNextPrompt` flag set, the
prompt block — which contains the image/audio preview defaulting of
lines 234-238 — is skipped entirely, so `a.png` with no view-type hint is
opened with the default (absent → editor) view type, not `"browser"`,
refuting the claim as stated (it does not condition on the flag). -/
theorem C9_counterexample :
    (URIAtLine envOk true (strL "a.png") .noLine none false false).opens
      = [OpenCall.plain (strL "a.png") none false] ∧
    (URIAtLine envOk true (strL "a.png") .noLine none false false).opens
      ≠ [OpenCall.plain (strL "a.png") (some (strL "browser")) false] :=
  ⟨rfl, by decide⟩

end KoOpen

namespace KoOpen

-- ### C10: the one-shot flag is untouched off the default branch

theorem URIAtLine_skip_eq (env : OpenEnv) (skip0 : Bool) (uri : Str) (lineno : LineVal)
    (vt : Option Str) (sr cb : Bool) :
    (URIAtLine env skip0 uri lineno vt sr cb).skip
      = (URIAtLineInner env skip0 uri lineno vt sr cb).1.skip := by
  unfold URIAtLine
  split
  next E a heq => rw [heq]
  next E e heq => rw [heq]

theorem URIAtLineInner_branch_skip (env : OpenEnv) (skip0 : Bool) (uri : Str)
    (lineno0 : LineVal) (vt : Option Str) (sr cb : Bool) {u0 u : Str} {l : LineVal}
    (hpath : env.pathToURI uri = .ok u0)
    (hstrip : stripLine u0 lineno0 = (u, l))
    (hbranch : matchProject u = true ∨ matchXpi u = true ∨ matchKpz u = true ∨
               ((env.dbexplorer && dbExtHit u) = true ∧ env.addSqlite u = .ok true)) :
    (URIAtLineInner env skip0 uri lineno0 vt sr cb).1.skip = skip0 := by
  unfold URIAtLineInner
  rw [hpath]
  dsimp only
  simp only [hstrip]
  by_cases h1 : matchProject u = true
  · rw [if_pos h1]
    split <;> rfl
  · rw [if_neg h1]
    by_cases h2 : matchXpi u = true
    · rw [if_pos h2]
      split <;> rfl
    · rw [if_neg h2]
      by_cases h3 : matchKpz u = true
      · rw [if_pos h3]
        split <;> rfl
      · rw [if_neg h3]
        rcases hbranch with hb | hb | hb | ⟨hdbe, hsql⟩
        · exact absurd hb h1
        · exact absurd hb h2
        · exact absurd hb h3
        · rw [hdbe]
          rw [if_pos rfl, hsql]
          rfl

/-- C10: when the URI classifies as a project file (`.kpf` /
`.komodoproject`), an add-on package (`.xpi`), a toolbox package
(`.kpz`), or a handled database file (database-explorer present, `db` /
`sqlite` / `sqlite3` extension, viewer accepting), `URIAtLine` leaves the
one-shot `skipNextPrompt` flag unchanged — it is reset to false only on
the default document-open path (line 240). -/
theorem C10_skip_flag_unchanged (env : OpenEnv) (skip0 : Bool) (uri : Str)
    (lineno0 : LineVal) (vt : Option Str) (sr cb : Bool) {u0 u : Str} {l : LineVal}
    (hpath : env.pathToURI uri = .ok u0)
    (hstrip : stripLine u0 lineno0 = (u, l))
    (hbranch : matchProject u = true ∨ matchXpi u = true ∨ matchKpz u = true ∨
               ((env.dbexplorer && dbExtHit u) = true ∧ env.addSqlite u = .ok true)) :
    (URIAtLine env skip0 uri lineno0 vt sr cb).skip = skip0 := by
  rw [URIAtLine_skip_eq]
  exact URIAtLineInner_branch_skip env skip0 uri lineno0 vt sr cb hpath hstrip hbranch

/-- Witness for C10: a `.kpf` project URI with the flag set leaves it
set. -/
theorem C10_skip_flag_unchanged_witness :
    (URIAtLine envOk true (strL "p.kpf") .noLine none false false).skip = true :=
  C10_skip_flag_unchanged envOk true (strL "p.kpf") .noLine none false false
    rfl rfl (Or.inl (by decide))

end KoOpen
